import Mathlib

/-!
# Verification of `src/tls/s2n_config.c`

A shallow embedding of the configuration layer of the s2n TLS library:
the static cipher-preference table, `s2n_config_new`, `s2n_config_free`,
`s2n_config_add_cert_chain_and_key` (including its PEM certificate-chain
building loop and its `uint32_t` wire-size accounting) and
`s2n_config_add_dhparams`.

Code that `s2n_config.c` calls but that is not part of the sources under
verification (the stuffer/buffer layer, the PEM decoder, the key and
DH-parameter converters, `s2n_alloc`/`s2n_free`, and the cipher-suite
identifier macros of `s2n_cipher_suites.h`) is modelled from the
specification, as documented on each such definition.  Machine integers
are modelled as `Nat`, with an explicit `% 2 ^ 32` wherever the source
performs `uint32_t` arithmetic (the `chain_size` accumulator).
-/

set_option autoImplicit false

namespace S2n

/-- The modulus of `uint32_t` arithmetic. -/
def U32 : Nat := 2 ^ 32

/-! ## Cipher-suite identifiers and the static preference table

Modelled from the spec: the identifiers come from `s2n_cipher_suites.h`,
which is not under `src/`; the spec describes them as 2-byte wire
identifiers, so each is the standard TLS registry code, written as the
two bytes that the C macros expand to inside `wire_format_20140601[]`. -/

/-- Modelled from the spec: 2-byte wire code of DHE-RSA-AES128-CBC-SHA256. -/
def TLS_DHE_RSA_WITH_AES_128_CBC_SHA256 : List Nat := [0x00, 0x67]

/-- Modelled from the spec: 2-byte wire code of DHE-RSA-AES128-CBC-SHA. -/
def TLS_DHE_RSA_WITH_AES_128_CBC_SHA : List Nat := [0x00, 0x33]

/-- Modelled from the spec: 2-byte wire code of DHE-RSA-3DES-EDE-CBC-SHA. -/
def TLS_DHE_RSA_WITH_3DES_EDE_CBC_SHA : List Nat := [0x00, 0x16]

/-- Modelled from the spec: 2-byte wire code of RSA-AES128-CBC-SHA256. -/
def TLS_RSA_WITH_AES_128_CBC_SHA256 : List Nat := [0x00, 0x3C]

/-- Modelled from the spec: 2-byte wire code of RSA-AES128-CBC-SHA. -/
def TLS_RSA_WITH_AES_128_CBC_SHA : List Nat := [0x00, 0x2F]

/-- Modelled from the spec: 2-byte wire code of RSA-3DES-EDE-CBC-SHA. -/
def TLS_RSA_WITH_3DES_EDE_CBC_SHA : List Nat := [0x00, 0x0A]

/-- Modelled from the spec: 2-byte wire code of RSA-RC4-128-SHA. -/
def TLS_RSA_WITH_RC4_128_SHA : List Nat := [0x00, 0x05]

/-- Modelled from the spec: 2-byte wire code of RSA-RC4-128-MD5. -/
def TLS_RSA_WITH_RC4_128_MD5 : List Nat := [0x00, 0x04]

/-- The suites named in `wire_format_20140601[]`, in source order
(`s2n_config.c` lines 27-30). -/
def suites_20140601 : List (List Nat) :=
  [TLS_DHE_RSA_WITH_AES_128_CBC_SHA256, TLS_DHE_RSA_WITH_AES_128_CBC_SHA,
   TLS_DHE_RSA_WITH_3DES_EDE_CBC_SHA, TLS_RSA_WITH_AES_128_CBC_SHA256,
   TLS_RSA_WITH_AES_128_CBC_SHA, TLS_RSA_WITH_3DES_EDE_CBC_SHA,
   TLS_RSA_WITH_RC4_128_SHA, TLS_RSA_WITH_RC4_128_MD5]

/-- The static byte array `wire_format_20140601[]`: the eight 2-byte
identifiers laid out flat, exactly as the C initializer does. -/
def wire_format_20140601 : List Nat := suites_20140601.flatten

/-- A cipher-preference table: `struct s2n_cipher_preferences`
(`count` plus the wire-format byte sequence it points at). -/
structure CipherPreferences where
  count : Nat
  wire_format : List Nat
deriving DecidableEq, Repr

/-- The static `cipher_preferences_20140601` (lines 31-34):
`.count = 8`, `.wire_format = wire_format_20140601`. -/
def cipher_preferences_20140601 : CipherPreferences :=
  { count := 8, wire_format := wire_format_20140601 }

/-! ## The configuration data model

`struct s2n_config` holds a pointer to a `struct s2n_cert_chain_and_key`,
a pointer to `struct s2n_dh_params` and a pointer to a cipher-preference
table.  The chain-and-key structure is initialized field by field by
`s2n_config_add_cert_chain_and_key`, so the model records exactly which
fields have been written so far. -/

/-- The initialization stage of the `struct s2n_cert_chain_and_key` that
`s2n_config_add_cert_chain_and_key` allocates and fills in place:
* `uninit` — freshly allocated, no field written yet (line 91);
* `keyOnly` — `private_key` written (line 102), `head` and `chain_size`
  still unwritten;
* `keyChain` — `private_key` written and `head` points at the nodes
  attached so far (line 130), `chain_size` still unwritten;
* `full` — every field written, `chain_size` set (line 134).
A certificate chain node is one certificate's DER bytes; the singly
linked node list is modelled as a `List` in insertion order. -/
inductive CCKState where
  | uninit : CCKState
  | keyOnly (key : Nat) : CCKState
  | keyChain (key : Nat) (nodes : List (List Nat)) : CCKState
  | full (key : Nat) (nodes : List (List Nat)) (chain_size : Nat) : CCKState
deriving DecidableEq, Repr

/-- `true` exactly on a fully initialized chain-and-key structure. -/
def CCKState.isFull : CCKState → Bool
  | .full _ _ _ => true
  | _ => false

/-- The stage the chain-and-key structure is in when the building loop
aborts: `head` has been written only if at least one node was attached
(`*insert = new_node`, line 130). -/
def CCKState.afterLoopStop (key : Nat) (nodes : List (List Nat)) : CCKState :=
  if nodes.isEmpty then .keyOnly key else .keyChain key nodes

/-- Initialization stage of the `struct s2n_dh_params` allocated by
`s2n_config_add_dhparams`: attached uninitialized at line 150, filled by
`s2n_pkcs3_to_dh_params` at line 162. -/
inductive DhState where
  | uninitDh : DhState
  | dhFull (params : Nat) : DhState
deriving DecidableEq, Repr

/-- `struct s2n_config`: the three pointer fields, by value.  `none`
models a null pointer (for the chain-and-key and DH-params fields). -/
structure Config where
  cert_and_key_pairs : Option CCKState
  dhparams : Option DhState
  cipher_preferences : CipherPreferences
deriving DecidableEq, Repr

/-- The static `s2n_default_config` (lines 39-42).  C zero-initializes
static storage, so the `dhparams` field it does not name is null. -/
def s2n_default_config : Config :=
  { cert_and_key_pairs := none, dhparams := none,
    cipher_preferences := cipher_preferences_20140601 }

/-- The mutable static objects of `s2n_config.c`, threaded through
`s2n_config_new` so that the model can state that they are not written.
(`s2n_cipher_preferences_default` is a static pointer aimed at
`cipher_preferences_20140601`, so reads through it read this record.) -/
structure Statics where
  wire_format_20140601 : List Nat
  cipher_preferences_20140601 : CipherPreferences
  s2n_default_config : Config
deriving DecidableEq, Repr

/-- The values the statics hold after C static initialization. -/
def initialStatics : Statics :=
  { wire_format_20140601 := wire_format_20140601,
    cipher_preferences_20140601 := cipher_preferences_20140601,
    s2n_default_config := s2n_default_config }

/-- Process-wide mutable state outside any configuration: whether
`RAND_set_rand_method(&s2n_openssl_rand_method)` has been called. -/
structure World where
  rand_override_installed : Bool
deriving DecidableEq, Repr

/-! ## Allocator

Modelled from the spec: `s2n_alloc`/`s2n_free` live in
`utils/s2n_mem.c`, which is not under `src/`.  The spec's contract:
`allocate(n)` returns a fresh exclusively owned region
(zero-initialized-or-undefined) or fails with OutOfMemory;
`release` returns the region.  The heap records the identities of live
blocks, which is what the leak/freshness claims are about; whether a
given allocation succeeds is an oracle parameter `aOk`, indexed by the
order of the allocation calls inside one operation. -/

/-- Live-block accounting: `next` is the next fresh block id, `live`
the ids of currently allocated blocks (most recent first). -/
structure Heap where
  next : Nat
  live : List Nat
deriving DecidableEq, Repr

/-- A heap whose live list is consistent with its id counter. -/
def Heap.WF (h : Heap) : Prop := ∀ i ∈ h.live, i < h.next

instance (h : Heap) : Decidable h.WF := List.decidableBAll _ h.live

/-- Modelled from the spec: a successful `s2n_alloc` hands out a fresh
block. Returns the new heap and the fresh block's id. -/
def s2n_alloc_heap (h : Heap) : Heap × Nat :=
  ({ next := h.next + 1, live := h.next :: h.live }, h.next)

/-- Modelled from the spec: `s2n_free` releases one live block. -/
def s2n_free_heap (h : Heap) (id : Nat) : Heap :=
  { next := h.next, live := h.live.erase id }

/-- What `s2n_config_new` hands back on success: the heap block ids of
the three allocations it made (the `struct s2n_config` itself, the
`struct s2n_cipher_preferences` copy, and the wire-format byte copy)
and the logical contents of the configuration. -/
structure ConfigRef where
  selfId : Nat
  prefsId : Nat
  wireId : Nat
  val : Config
deriving DecidableEq, Repr

/-! ## `s2n_config_new` and `s2n_config_free` (lines 44-81) -/

/-- Everything `s2n_config_new` can have touched when it returns: the
statics (read but never written), the heap, the process-wide state
(never touched: the function calls no random-override routine) and the
returned configuration (`none` models the `NULL` returned on
allocation failure). -/
structure NewResult where
  statics : Statics
  heap : Heap
  world : World
  config : Option ConfigRef
deriving Repr

/-- `s2n_config_new` (lines 44-74).  `aOk i` tells whether the `i`-th
`s2n_alloc` call succeeds; `garbage` is the allocator-provided initial
contents of the config block (the spec's allocator contract is
"zero-initialized-or-undefined", so this is an arbitrary `Config`
value).  The function sets `cert_and_key_pairs` to null (line 54) and
fills the cipher-preference copy (lines 60-69: `count` read through
`s2n_cipher_preferences_default`, which aims at
`cipher_preferences_20140601`, and `sizeof(wire_format_20140601)`
bytes memcpy'd from `wire_format_20140601`); it never writes the
`dhparams` field, which therefore keeps the allocator garbage.  On any
allocation failure it returns null without freeing what it already
allocated. -/
def s2n_config_new (aOk : Nat → Bool) (garbage : Config) (st : Statics)
    (h : Heap) (w : World) : NewResult :=
  if aOk 0 then
    let (h1, id0) := s2n_alloc_heap h
    if aOk 1 then
      let (h2, id1) := s2n_alloc_heap h1
      if aOk 2 then
        let (h3, id2) := s2n_alloc_heap h2
        { statics := st, heap := h3, world := w,
          config := some
            { selfId := id0, prefsId := id1, wireId := id2,
              val := { cert_and_key_pairs := none,
                       dhparams := garbage.dhparams,
                       cipher_preferences :=
                         { count := st.cipher_preferences_20140601.count,
                           wire_format := st.wire_format_20140601 } } } }
      else { statics := st, heap := h2, world := w, config := none }
    else { statics := st, heap := h1, world := w, config := none }
  else { statics := st, heap := h, world := w, config := none }

/-- `s2n_config_free` (lines 76-81): builds a blob covering exactly the
`struct s2n_config` block and frees that single block.  It walks
nothing: the cipher-preference copy, the wire-format copy, chain nodes
and key/DH objects are not released. -/
def s2n_config_free (h : Heap) (c : ConfigRef) : Heap :=
  s2n_free_heap h c.selfId

/-! ## The PEM decoder interface

Modelled from the spec: `s2n_stuffer_certificate_from_pem` lives in the
stuffer layer, which is not under `src/`.  Per spec section 4.3 it scans
the input buffer from its current read cursor, base64-decodes the next
PEM block, appends the decoded bytes to the output buffer and advances
the input read cursor past the consumed block; it fails (NoPemBlockFound
or MalformedBase64 — the caller's `< 0` check does not distinguish them)
when no further clean block exists.  The model captures one chain input
as the total byte count of the wrapped string and the decoder's response
at each read-cursor position. -/

/-- One certificate-chain PEM input, seen through the decoder:
`len` is the byte length of the wrapped string, and `decode c` is the
decoder's behavior when the read cursor is `c`: `some (b, c')` means one
block decodes to the DER bytes `b` and the cursor advances to `c'`;
`none` means the decoder fails (no block, or malformed base64). -/
structure PemInput where
  len : Nat
  decode : Nat → Option (List Nat × Nat)

/-- The decoder contract of spec section 4.3: a successful decode
consumes at least one input byte and never moves the cursor past the
end of the input. -/
def PemInput.Progress (inp : PemInput) : Prop :=
  ∀ c b c', inp.decode c = some (b, c') → c < c' ∧ c' ≤ inp.len

/-- `DecodesFrom inp c bs c'` — starting at read cursor `c`, successive
decoder calls produce exactly the blocks `bs` and leave the cursor at
`c'`. -/
inductive DecodesFrom (inp : PemInput) : Nat → List (List Nat) → Nat → Prop where
  | nil (c : Nat) : DecodesFrom inp c [] c
  | cons (c : Nat) (b : List Nat) (c' : Nat) (bs : List (List Nat)) (cend : Nat) :
      inp.decode c = some (b, c') → DecodesFrom inp c' bs cend →
      DecodesFrom inp c (b :: bs) cend

/-- A well-formed N-certificate PEM input, for `N = bs.length`: the
decoder, run from cursor 0, produces the blocks `bs` and then stops —
either because the input is exhausted or because no further block
decodes. -/
def WellFormedPem (inp : PemInput) (bs : List (List Nat)) : Prop :=
  inp.Progress ∧ ∃ cend, DecodesFrom inp 0 bs cend ∧
    (cend = inp.len ∨ inp.decode cend = none)

/-! ## The chain-building loop (lines 108-132) -/

/-- Outcome of the `do { ... } while` loop of
`s2n_config_add_cert_chain_and_key`:
* `ok nodes size cursor` — loop left normally (decoder failure after at
  least 3 bytes of accounted size, line 118, or input exhausted,
  line 132) with `nodes` attached and `size` accumulated;
* `emptyErr nodes cursor` — decoder failed while `chain_size == 0`
  (lines 114-117): the function returns -1 with
  "No certificates found in PEM" (`nodes` is what had been attached:
  the empty list unless the `uint32_t` accumulator wrapped to 0);
* `allocErr nodes size cursor` — a GUARDed `s2n_alloc` inside the loop
  failed (lines 121 or 124);
* `fuelOut` — the model's fuel ran out; unreachable when the decoder
  satisfies `Progress` and the fuel exceeds the unread byte count. -/
inductive LoopOut where
  | ok (nodes : List (List Nat)) (size : Nat) (cursor : Nat) : LoopOut
  | emptyErr (nodes : List (List Nat)) (cursor : Nat) : LoopOut
  | allocErr (nodes : List (List Nat)) (size : Nat) (cursor : Nat) : LoopOut
  | fuelOut : LoopOut
deriving DecidableEq, Repr

/-- The loop body and `while` test (lines 110-132), one source iteration
per fuel unit.  `aidx` numbers the `s2n_alloc` calls (two per node: the
node struct at line 121, the certificate blob at line 124); `nodes` and
`size` are the chain built so far and the `uint32_t` accumulator
`chain_size` (hence the `% U32` on every addition, line 128).  The
`while` test `s2n_stuffer_data_available(&chain_in_stuffer)` is
`inp.len - cursor ≠ 0`. -/
def chainLoop (aOk : Nat → Bool) (inp : PemInput) :
    Nat → Nat → Nat → List (List Nat) → Nat → LoopOut
  | 0, _, _, _, _ => .fuelOut
  | fuel + 1, cursor, aidx, nodes, size =>
    match inp.decode cursor with
    | none => if size = 0 then .emptyErr nodes cursor else .ok nodes size cursor
    | some (b, c') =>
      if aOk aidx && aOk (aidx + 1) then
        let nodes' := nodes ++ [b]
        let size' := (size + b.length + 3) % U32
        if inp.len - c' = 0 then .ok nodes' size' c'
        else chainLoop aOk inp fuel c' (aidx + 2) nodes' size'
      else .allocErr nodes size cursor

/-- The `chain_size` accumulation over a block list, starting from
`s`: exactly the loop's `chain_size += cert.size + 3` in `uint32_t`
arithmetic. -/
def chainSizeAcc (s : Nat) (bs : List (List Nat)) : Nat :=
  bs.foldl (fun a b => (a + b.length + 3) % U32) s

/-! ## `s2n_config_add_cert_chain_and_key` (lines 83-140) -/

/-- Failure values of the configuration-level operations.  The source
reports failure by returning -1 with `*err` set by the failing callee;
the constructors name the failing step. -/
inductive S2nErr where
  | allocFail : S2nErr
  | keyPemFail : S2nErr
  | keyAsn1Fail : S2nErr
  | noCertsInPem : S2nErr
  | dhPemFail : S2nErr
  | dhDecodeFail : S2nErr
  | loopDiverged : S2nErr
deriving DecidableEq, Repr

/-- The `*err` string for the errors that `s2n_config.c` itself sets
(line 115); the other errors carry whatever string the failing callee
set. -/
def S2nErr.message : S2nErr → Option String
  | .noCertsInPem => some "No certificates found in PEM"
  | _ => none

/-- Result of one configuration-level call: the configuration as left
by the call, the process-wide state, and `none` on success (return 0)
or the failure on the -1 path. -/
structure CallResult where
  cfg : Config
  world : World
  result : Option S2nErr
deriving Repr

/-- `s2n_config_add_cert_chain_and_key` (lines 83-140), in source
order.  Parameters standing for code outside `src/`:
* `aOk` — the allocation oracle; call order: 0 = the
  `struct s2n_cert_chain_and_key` (line 90), 1 = the growable key
  output stuffer (line 95), 2 = the growable certificate output stuffer
  (line 106), 3, 4, ... = the per-node allocations inside the loop.
  (Read-only stuffers wrap the caller's string without allocating, per
  spec section 4.2.)
* `keyPem` — modelled from the spec: the outcome of
  `s2n_stuffer_rsa_private_key_from_pem` on `private_key_pem`
  (line 98): the DER bytes of the single decoded block, or `none`.
* `asn1 ` — modelled from the spec: `s2n_asn1der_to_rsa_private_key`
  (line 102), from DER bytes to a structured key object.
* `inp` — the chain input as seen by the PEM decoder.
The function attaches the freshly allocated chain-and-key structure to
the configuration at line 91, before anything is parsed, and fills it
in place; every failure return after that point therefore leaves the
partially initialized structure attached.  Only the success path
(line 137) installs the process-wide random override. -/
def s2n_config_add_cert_chain_and_key (aOk : Nat → Bool)
    (keyPem : Option (List Nat)) (asn1 : List Nat → Option Nat)
    (inp : PemInput) (cfg : Config) (w : World) : CallResult :=
  if aOk 0 then
    let cfg1 := { cfg with cert_and_key_pairs := some .uninit }
    if aOk 1 then
      match keyPem with
      | none => ⟨cfg1, w, some .keyPemFail⟩
      | some der =>
        match asn1 der with
        | none => ⟨cfg1, w, some .keyAsn1Fail⟩
        | some key =>
          let cfg2 := { cfg with cert_and_key_pairs := some (.keyOnly key) }
          if aOk 2 then
            match chainLoop aOk inp (inp.len + 1) 0 3 [] 0 with
            | .ok nodes size _ =>
              ⟨{ cfg with cert_and_key_pairs := some (.full key nodes size) },
               { w with rand_override_installed := true }, none⟩
            | .emptyErr nodes _ =>
              ⟨{ cfg with
                 cert_and_key_pairs := some (CCKState.afterLoopStop key nodes) },
               w, some .noCertsInPem⟩
            | .allocErr nodes _ _ =>
              ⟨{ cfg with
                 cert_and_key_pairs := some (CCKState.afterLoopStop key nodes) },
               w, some .allocFail⟩
            | .fuelOut =>
              ⟨cfg2, w, some .loopDiverged⟩
          else ⟨cfg2, w, some .allocFail⟩
    else ⟨cfg1, w, some .allocFail⟩
  else ⟨cfg, w, some .allocFail⟩

/-! ## `s2n_config_add_dhparams` (lines 142-165) -/

/-- `s2n_config_add_dhparams`, in source order.  `aOk` is the
allocation oracle (0 = the `struct s2n_dh_params` at line 149, 1 = the
growable output stuffer at line 153); `dhPem` is modelled from the
spec: the outcome of `s2n_stuffer_dhparams_from_pem` (line 156);
`pkcs3` is modelled from the spec: `s2n_pkcs3_to_dh_params`
(line 162).  The struct is attached at line 150 before parsing, as in
`s2n_config_add_cert_chain_and_key`; no path touches the process-wide
random override. -/
def s2n_config_add_dhparams (aOk : Nat → Bool) (dhPem : Option (List Nat))
    (pkcs3 : List Nat → Option Nat) (cfg : Config) (w : World) : CallResult :=
  if aOk 0 then
    let cfg1 := { cfg with dhparams := some .uninitDh }
    if aOk 1 then
      match dhPem with
      | none => ⟨cfg1, w, some .dhPemFail⟩
      | some der =>
        match pkcs3 der with
        | none => ⟨cfg1, w, some .dhDecodeFail⟩
        | some params =>
          ⟨{ cfg with dhparams := some (.dhFull params) }, w, none⟩
    else ⟨cfg1, w, some .allocFail⟩
  else ⟨cfg, w, some .allocFail⟩

/-- The `chain_size` stored in a configuration's chain-and-key
structure, when that structure is fully initialized. -/
def storedChainSize (cfg : Config) : Option Nat :=
  match cfg.cert_and_key_pairs with
  | some (.full _ _ size) => some size
  | _ => none

/-- The node list of a configuration's fully initialized chain-and-key
structure. -/
def storedChain (cfg : Config) : Option (List (List Nat)) :=
  match cfg.cert_and_key_pairs with
  | some (.full _ nodes _) => some nodes
  | _ => none

/-! ## Concrete evaluation inputs

Small closed inputs used to run the model at specific points. -/

/-- A tiny well-formed 2-certificate chain input: a block decoding to
`[1, 2]` consuming bytes 0-3, then a block decoding to `[5]` consuming
bytes 4-9, exhausting the input. -/
def demoInp : PemInput :=
  { len := 10,
    decode := fun c =>
      if c = 0 then some ([1, 2], 4)
      else if c = 4 then some ([5], 10)
      else none }

/-- A chain input containing no PEM block at all. -/
def demoEmptyInp : PemInput := { len := 0, decode := fun _ => none }

/-- One huge certificate: `2 ^ 31 + 2` DER bytes. -/
def cexBlock : List Nat := List.replicate (2 ^ 31 + 2) 0

/-- The block list of the wrap-around chain input: two huge
certificates, whose wire sizes sum to `2 ^ 32 + 10`. -/
def cexBlocks : List (List Nat) := [cexBlock, cexBlock]

/-- A well-formed 2-certificate chain input large enough to overflow
the `uint32_t` size accumulator: each block consumes 2863311600 input
bytes (a plausible base64 expansion of its `2 ^ 31 + 2` decoded bytes)
and the second block exhausts the input. -/
def cexInp : PemInput :=
  { len := 5726623200,
    decode := fun c =>
      if c = 0 then some (cexBlock, 2863311600)
      else if c = 2863311600 then some (cexBlock, 5726623200)
      else none }

/-- An arbitrary non-zero allocator fill for the config block: models
an allocator that hands back undefined (here: dangling non-null)
bytes. -/
def garbageConfig : Config :=
  { cert_and_key_pairs := some .uninit,
    dhparams := some (.dhFull 7),
    cipher_preferences := { count := 0, wire_format := [] } }

/-- `s2n_config_new` run on an empty heap with every allocation
succeeding and a zero-filled config block. -/
def demoNewRun : NewResult :=
  s2n_config_new (fun _ => true) s2n_default_config initialStatics
    { next := 0, live := [] } { rand_override_installed := false }

/-- The configuration reference that `demoNewRun` produces: blocks
0 (config struct), 1 (cipher-preference struct), 2 (wire-format
bytes). -/
def demoConfigRef : ConfigRef :=
  { selfId := 0, prefsId := 1, wireId := 2,
    val := { cert_and_key_pairs := none, dhparams := none,
             cipher_preferences :=
               { count := 8, wire_format := wire_format_20140601 } } }

/-! ## Helper lemmas -/

/-- Under the decoder contract, no block can decode at the very end of
the input: a success would have to advance the cursor past `len`. -/
theorem PemInput.Progress.decode_len_eq_none {inp : PemInput}
    (h : inp.Progress) : inp.decode inp.len = none := by
  cases hd : inp.decode inp.len with
  | none => rfl
  | some p =>
    obtain ⟨b, c'⟩ := p
    have := h _ _ _ hd
    omega

theorem chainSizeAcc_nil (s : Nat) : chainSizeAcc s [] = s := rfl

theorem chainSizeAcc_cons (s : Nat) (b : List Nat) (bs : List (List Nat)) :
    chainSizeAcc s (b :: bs) = chainSizeAcc ((s + b.length + 3) % U32) bs := rfl

/-- Folding the `uint32_t` accumulation over a nonempty block list is
the plain sum of the per-certificate wire sizes, reduced once
modulo `2 ^ 32`. -/
theorem chainSizeAcc_eq_sum (s : Nat) (bs : List (List Nat)) (hbs : bs ≠ []) :
    chainSizeAcc s bs = (s + (bs.map fun b => b.length + 3).sum) % U32 := by
  induction bs generalizing s with
  | nil => exact absurd rfl hbs
  | cons b bs ih =>
    rw [chainSizeAcc_cons]
    cases bs with
    | nil =>
      simp [chainSizeAcc_nil, Nat.add_assoc]
    | cons b2 bs2 =>
      rw [ih _ (by simp), Nat.mod_add_mod]
      congr 1
      simp [Nat.add_assoc]

/-- The chain-building loop, run with sufficient fuel and every
allocation succeeding, on an input whose decoder produces `blocks` from
cursor `c0` and then stops: it attaches exactly `blocks` after `nodes`
and accumulates their wire sizes in `uint32_t`, leaving normally —
unless the decoder stops it with a wrapped-to-zero accumulator, which
takes the `chain_size == 0` error exit of lines 114-117. -/
theorem chainLoop_run (inp : PemInput) (hprog : inp.Progress)
    {c0 cend : Nat} {blocks : List (List Nat)}
    (hd : DecodesFrom inp c0 blocks cend) :
    ∀ fuel aidx nodes size, c0 ≤ inp.len →
      (cend = inp.len ∨ inp.decode cend = none) →
      inp.len + 1 - c0 ≤ fuel →
      chainLoop (fun _ => true) inp fuel c0 aidx nodes size =
        if blocks ≠ [] ∧ cend = inp.len then
          .ok (nodes ++ blocks) (chainSizeAcc size blocks) cend
        else if chainSizeAcc size blocks = 0 then
          .emptyErr (nodes ++ blocks) cend
        else .ok (nodes ++ blocks) (chainSizeAcc size blocks) cend := by
  induction hd with
  | nil c =>
    intro fuel aidx nodes size hc0 hend hfuel
    have hnone : inp.decode c = none := by
      rcases hend with h | h
      · subst h; exact hprog.decode_len_eq_none
      · exact h
    obtain ⟨f, rfl⟩ : ∃ f, fuel = f + 1 := ⟨fuel - 1, by omega⟩
    simp only [chainLoop, hnone]
    have hno : ¬(([] : List (List Nat)) ≠ [] ∧ c = inp.len) := by simp
    rw [if_neg hno]
    simp only [chainSizeAcc_nil, List.append_nil]
  | cons c b c' bs cend hdec hrest ih =>
    intro fuel aidx nodes size hc0 hend hfuel
    have hp := hprog c b c' hdec
    obtain ⟨f, rfl⟩ : ∃ f, fuel = f + 1 := ⟨fuel - 1, by omega⟩
    simp only [chainLoop, hdec, Bool.and_self, if_true]
    by_cases hc' : inp.len - c' = 0
    · have hlen : c' = inp.len := by omega
      rw [if_pos hc']
      have hbs : bs = [] ∧ cend = c' := by
        cases hrest with
        | nil => exact ⟨rfl, rfl⟩
        | cons _ b2 c2 bs2 _ hdec2 _ =>
          have := hprog _ _ _ hdec2
          omega
      obtain ⟨rfl, rfl⟩ := hbs
      rw [if_pos ⟨by simp, hlen⟩]
      simp [chainSizeAcc_cons, chainSizeAcc_nil]
    · rw [if_neg hc']
      have ihr := ih f (aidx + 2) (nodes ++ [b]) ((size + b.length + 3) % U32)
        (by omega) hend (by omega)
      rw [ihr]
      have hne : cend = inp.len → bs ≠ [] := by
        intro hl hbs
        subst hbs
        cases hrest
        omega
      simp only [List.append_assoc, List.singleton_append, ← chainSizeAcc_cons]
      by_cases hcl : cend = inp.len
      · rw [if_pos ⟨hne hcl, hcl⟩, if_pos ⟨by simp, hcl⟩]
      · rw [if_neg (show ¬(bs ≠ [] ∧ cend = inp.len) from fun hh => hcl hh.2),
          if_neg (show ¬(b :: bs ≠ [] ∧ cend = inp.len) from fun hh => hcl hh.2)]

/-- `s2n_config_add_cert_chain_and_key` on a decodable chain with every
allocation succeeding and a good private key: the whole call reduces to
the outcome of the chain loop. -/
theorem add_cert_run (inp : PemInput) (hprog : inp.Progress)
    {cend : Nat} {blocks : List (List Nat)}
    (hd : DecodesFrom inp 0 blocks cend)
    (hend : cend = inp.len ∨ inp.decode cend = none)
    (der : List Nat) (key : Nat) (asn1 : List Nat → Option Nat)
    (hasn1 : asn1 der = some key) (cfg : Config) (w : World) :
    s2n_config_add_cert_chain_and_key (fun _ => true) (some der) asn1 inp cfg w =
      if blocks ≠ [] ∧ cend = inp.len then
        ⟨{ cfg with
           cert_and_key_pairs := some (.full key blocks (chainSizeAcc 0 blocks)) },
         { w with rand_override_installed := true }, none⟩
      else if chainSizeAcc 0 blocks = 0 then
        ⟨{ cfg with
           cert_and_key_pairs := some (CCKState.afterLoopStop key blocks) },
         w, some .noCertsInPem⟩
      else
        ⟨{ cfg with
           cert_and_key_pairs := some (.full key blocks (chainSizeAcc 0 blocks)) },
         { w with rand_override_installed := true }, none⟩ := by
  have hrun := chainLoop_run inp hprog hd (inp.len + 1) 3 [] 0 (Nat.zero_le _)
    hend (by omega)
  simp only [List.nil_append] at hrun
  simp only [s2n_config_add_cert_chain_and_key, hasn1, if_true]
  rw [hrun]
  by_cases h1 : blocks ≠ [] ∧ cend = inp.len
  · rw [if_pos h1, if_pos h1]
  · rw [if_neg h1, if_neg h1]
    by_cases h2 : chainSizeAcc 0 blocks = 0
    · rw [if_pos h2, if_pos h2]
    · rw [if_neg h2, if_neg h2]

/-- The chain-and-key structure is never fully initialized at a loop
abort: `chain_size` (line 134) has not been written yet. -/
theorem afterLoopStop_not_full (k : Nat) (ns : List (List Nat)) :
    (CCKState.afterLoopStop k ns).isFull = false := by
  unfold CCKState.afterLoopStop
  split <;> rfl

/-- The decoder contract holds for the small demo input. -/
theorem demoInp_progress : demoInp.Progress := by
  intro c b c' h
  simp only [demoInp] at h ⊢
  split_ifs at h with h1 h2
  · simp only [Option.some.injEq, Prod.mk.injEq] at h
    omega
  · simp only [Option.some.injEq, Prod.mk.injEq] at h
    omega

/-- The demo input decodes to its two blocks, exhausting the input. -/
theorem demoInp_decodes : DecodesFrom demoInp 0 [[1, 2], [5]] 10 := by
  refine .cons 0 [1, 2] 4 _ 10 (by simp [demoInp]) ?_
  exact .cons 4 [5] 10 _ 10 (by simp [demoInp]) (.nil 10)

/-- The demo input is a well-formed 2-certificate chain input. -/
theorem demoInp_wf : WellFormedPem demoInp [[1, 2], [5]] :=
  ⟨demoInp_progress, 10, demoInp_decodes, Or.inl rfl⟩

/-! ## The claims -/

/-- C5: the default ("2014-06-01") cipher-preference table has count 8
and lists, in exact order, the 2-byte wire identifiers of
DHE_RSA_AES_128_CBC_SHA256, DHE_RSA_AES_128_CBC_SHA,
DHE_RSA_3DES_EDE_CBC_SHA, RSA_AES_128_CBC_SHA256, RSA_AES_128_CBC_SHA,
RSA_3DES_EDE_CBC_SHA, RSA_RC4_128_SHA, RSA_RC4_128_MD5 — the three
forward-secret DHE suites before the five static-RSA / legacy suites. -/
theorem cipher_preferences_20140601_table :
    cipher_preferences_20140601.count = 8 ∧
    suites_20140601 =
      [TLS_DHE_RSA_WITH_AES_128_CBC_SHA256, TLS_DHE_RSA_WITH_AES_128_CBC_SHA,
       TLS_DHE_RSA_WITH_3DES_EDE_CBC_SHA, TLS_RSA_WITH_AES_128_CBC_SHA256,
       TLS_RSA_WITH_AES_128_CBC_SHA, TLS_RSA_WITH_3DES_EDE_CBC_SHA,
       TLS_RSA_WITH_RC4_128_SHA, TLS_RSA_WITH_RC4_128_MD5] ∧
    cipher_preferences_20140601.wire_format =
      [0x00, 0x67, 0x00, 0x33, 0x00, 0x16, 0x00, 0x3C,
       0x00, 0x2F, 0x00, 0x0A, 0x00, 0x05, 0x00, 0x04] ∧
    cipher_preferences_20140601.wire_format.length =
      2 * cipher_preferences_20140601.count ∧
    suites_20140601.all (fun s => s.length == 2) = true ∧
    suites_20140601 =
      [TLS_DHE_RSA_WITH_AES_128_CBC_SHA256, TLS_DHE_RSA_WITH_AES_128_CBC_SHA,
       TLS_DHE_RSA_WITH_3DES_EDE_CBC_SHA] ++
      [TLS_RSA_WITH_AES_128_CBC_SHA256, TLS_RSA_WITH_AES_128_CBC_SHA,
       TLS_RSA_WITH_3DES_EDE_CBC_SHA, TLS_RSA_WITH_RC4_128_SHA,
       TLS_RSA_WITH_RC4_128_MD5] := by
  decide

/-- C2: for every well-formed N-certificate PEM input (N ≥ 1) on which
`s2n_config_add_cert_chain_and_key` succeeds (all allocations succeed,
the private key decodes), the stored chain is exactly the list of the
decoded PEM blocks, in input order — N nodes, the i-th node's blob
being the decoded bytes of the i-th block. -/
theorem chain_nodes_are_pem_blocks_in_order
    (inp : PemInput) (blocks : List (List Nat)) (N : Nat)
    (hwf : WellFormedPem inp blocks) (hN : blocks.length = N) (hN1 : 1 ≤ N)
    (der : List Nat) (key : Nat) (asn1 : List Nat → Option Nat)
    (hasn1 : asn1 der = some key) (cfg : Config) (w : World)
    (hacc : (s2n_config_add_cert_chain_and_key (fun _ => true) (some der) asn1
        inp cfg w).result = none) :
    storedChain (s2n_config_add_cert_chain_and_key (fun _ => true) (some der)
        asn1 inp cfg w).cfg = some blocks ∧ blocks.length = N := by
  obtain ⟨hprog, cend, hd, hend⟩ := hwf
  rw [add_cert_run inp hprog hd hend der key asn1 hasn1 cfg w] at hacc ⊢
  by_cases h1 : blocks ≠ [] ∧ cend = inp.len
  · rw [if_pos h1] at hacc ⊢
    exact ⟨by simp [storedChain], hN⟩
  · rw [if_neg h1] at hacc ⊢
    by_cases h2 : chainSizeAcc 0 blocks = 0
    · rw [if_pos h2] at hacc
      exact absurd hacc (by simp)
    · rw [if_neg h2] at hacc ⊢
      exact ⟨by simp [storedChain], hN⟩

/-- Witness for C2: the demo 2-certificate input, on which the call
succeeds and stores exactly the two decoded blocks in order. -/
theorem chain_nodes_are_pem_blocks_in_order_witness :
    WellFormedPem demoInp [[1, 2], [5]] ∧
    storedChain (s2n_config_add_cert_chain_and_key (fun _ => true) (some [0])
        (fun _ => some 0) demoInp s2n_default_config
        ⟨false⟩).cfg = some [[1, 2], [5]] :=
  ⟨demoInp_wf,
   (chain_nodes_are_pem_blocks_in_order demoInp [[1, 2], [5]] 2 demoInp_wf rfl
     (by omega) [0] 0 (fun _ => some 0) rfl s2n_default_config ⟨false⟩
     (by decide)).1⟩

/-- C1 (amended): on every accepted well-formed N-certificate input the
stored `chain_size` is the sum over all N certificates of
(DER length + 3) reduced modulo `2 ^ 32` — the accumulator is a
`uint32_t`, so it equals the exact sum only when that sum is below
`2 ^ 32`. -/
theorem chain_size_eq_sum_mod_u32
    (inp : PemInput) (blocks : List (List Nat)) (N : Nat)
    (hwf : WellFormedPem inp blocks) (hN : blocks.length = N) (hN1 : 1 ≤ N)
    (der : List Nat) (key : Nat) (asn1 : List Nat → Option Nat)
    (hasn1 : asn1 der = some key) (cfg : Config) (w : World)
    (hacc : (s2n_config_add_cert_chain_and_key (fun _ => true) (some der) asn1
        inp cfg w).result = none) :
    storedChainSize (s2n_config_add_cert_chain_and_key (fun _ => true)
        (some der) asn1 inp cfg w).cfg =
      some ((blocks.map fun b => b.length + 3).sum % U32) := by
  have hbne : blocks ≠ [] := by
    intro hh
    subst hh
    simp at hN
    omega
  have hsz : chainSizeAcc 0 blocks = (blocks.map fun b => b.length + 3).sum % U32 := by
    rw [chainSizeAcc_eq_sum 0 blocks hbne, Nat.zero_add]
  obtain ⟨hprog, cend, hd, hend⟩ := hwf
  rw [add_cert_run inp hprog hd hend der key asn1 hasn1 cfg w] at hacc ⊢
  by_cases h1 : blocks ≠ [] ∧ cend = inp.len
  · rw [if_pos h1] at hacc ⊢
    simp [storedChainSize, hsz]
  · rw [if_neg h1] at hacc ⊢
    by_cases h2 : chainSizeAcc 0 blocks = 0
    · rw [if_pos h2] at hacc
      exact absurd hacc (by simp)
    · rw [if_neg h2] at hacc ⊢
      simp [storedChainSize, hsz]

/-- Witness for C1 (amended): on the demo input the stored size is
`(2 + 3) + (1 + 3) = 9`, which is the sum modulo `2 ^ 32`. -/
theorem chain_size_eq_sum_mod_u32_witness :
    WellFormedPem demoInp [[1, 2], [5]] ∧
    storedChainSize (s2n_config_add_cert_chain_and_key (fun _ => true)
        (some [0]) (fun _ => some 0) demoInp s2n_default_config ⟨false⟩).cfg =
      some ((([[1, 2], [5]] : List (List Nat)).map fun b => b.length + 3).sum % U32) :=
  ⟨demoInp_wf,
   chain_size_eq_sum_mod_u32 demoInp [[1, 2], [5]] 2 demoInp_wf rfl (by omega)
     [0] 0 (fun _ => some 0) rfl s2n_default_config ⟨false⟩ (by decide)⟩

/-- Counterexample to C1 as stated: a well-formed 2-certificate input,
accepted by `s2n_config_add_cert_chain_and_key`, whose per-certificate
wire sizes sum to `2 ^ 32 + 10`; the `uint32_t` accumulator wraps and
the stored `chain_size` is 10, not the sum. -/
theorem chain_size_exact_sum_wraps :
    WellFormedPem cexInp cexBlocks ∧
    (cexBlocks.map fun b => b.length + 3).sum = 2 ^ 32 + 10 ∧
    (s2n_config_add_cert_chain_and_key (fun _ => true) (some [0])
        (fun _ => some 0) cexInp s2n_default_config ⟨false⟩).result = none ∧
    storedChainSize (s2n_config_add_cert_chain_and_key (fun _ => true)
        (some [0]) (fun _ => some 0) cexInp s2n_default_config ⟨false⟩).cfg =
      some 10 ∧
    ¬ storedChainSize (s2n_config_add_cert_chain_and_key (fun _ => true)
        (some [0]) (fun _ => some 0) cexInp s2n_default_config ⟨false⟩).cfg =
      some ((cexBlocks.map fun b => b.length + 3).sum) := by
  have hprog : cexInp.Progress := by
    intro c b c' h
    simp only [cexInp] at h ⊢
    split_ifs at h with h1 h2
    · simp only [Option.some.injEq, Prod.mk.injEq] at h
      omega
    · simp only [Option.some.injEq, Prod.mk.injEq] at h
      omega
  have hd : DecodesFrom cexInp 0 cexBlocks 5726623200 := by
    refine .cons 0 cexBlock 2863311600 _ 5726623200 (by simp [cexInp]) ?_
    exact .cons 2863311600 cexBlock 5726623200 _ 5726623200
      (by simp [cexInp]) (.nil 5726623200)
  have hend : (5726623200 = cexInp.len ∨ cexInp.decode 5726623200 = none) :=
    Or.inl rfl
  have hlen : cexBlock.length = 2 ^ 31 + 2 := by
    unfold cexBlock
    exact List.length_replicate _ _
  have hsum : (cexBlocks.map fun b => b.length + 3).sum = 2 ^ 32 + 10 := by
    simp only [cexBlocks, List.map_cons, List.map_nil, List.sum_cons,
      List.sum_nil, hlen]
    norm_num
  have hsz : chainSizeAcc 0 cexBlocks = 10 := by
    rw [chainSizeAcc_eq_sum 0 cexBlocks (by simp [cexBlocks]), Nat.zero_add,
      hsum]
    norm_num [U32]
  have hrun := add_cert_run cexInp hprog hd hend [0] 0 (fun _ => some 0) rfl
    s2n_default_config ⟨false⟩
  rw [if_pos ⟨by simp [cexBlocks], rfl⟩] at hrun
  refine ⟨⟨hprog, 5726623200, hd, hend⟩, hsum, ?_, ?_, ?_⟩
  · rw [hrun]
  · rw [hrun]
    simp [storedChainSize, hsz]
  · rw [hrun]
    simp [storedChainSize, hsz, hsum]

/-- C3: on any input whose certificate-chain PEM contains zero blocks
(the first decoder call fails; this covers the empty string), the call
fails with the "No certificates found in PEM" error rather than
succeeding with an empty chain — given that the earlier private-key
steps did not fail first. -/
theorem zero_pem_blocks_fails_empty_chain
    (inp : PemInput) (h0 : inp.decode 0 = none)
    (der : List Nat) (key : Nat) (asn1 : List Nat → Option Nat)
    (hasn1 : asn1 der = some key) (cfg : Config) (w : World) :
    (s2n_config_add_cert_chain_and_key (fun _ => true) (some der) asn1 inp
        cfg w).result = some .noCertsInPem ∧
    (s2n_config_add_cert_chain_and_key (fun _ => true) (some der) asn1 inp
        cfg w).result ≠ none ∧
    S2nErr.noCertsInPem.message = some "No certificates found in PEM" := by
  have hloop : chainLoop (fun _ => true) inp (inp.len + 1) 0 3 [] 0 =
      .emptyErr [] 0 := by
    simp only [chainLoop, h0]
    rfl
  simp only [s2n_config_add_cert_chain_and_key, hasn1, hloop]
  exact ⟨rfl, by simp, rfl⟩

/-- Witness for C3: the zero-block demo input with a good key fails
with the empty-chain error. -/
theorem zero_pem_blocks_fails_empty_chain_witness :
    demoEmptyInp.decode 0 = none ∧
    (s2n_config_add_cert_chain_and_key (fun _ => true) (some [0])
        (fun _ => some 0) demoEmptyInp s2n_default_config
        ⟨false⟩).result = some .noCertsInPem :=
  ⟨rfl,
   (zero_pem_blocks_fails_empty_chain demoEmptyInp rfl [0] 0 (fun _ => some 0)
     rfl s2n_default_config ⟨false⟩).1⟩

/-- C4 (amended): `s2n_config_add_cert_chain_and_key` is not atomic.
Only when its very first allocation fails is the configuration left in
its prior state; on every later failure path (key PEM decode, key DER
decode, later allocation failures, malformed or empty chain) the
configuration is left with `cert_and_key_pairs` pointing at the freshly
allocated, partially initialized structure. -/
theorem add_cert_failure_not_atomic
    (aOk : Nat → Bool) (keyPem : Option (List Nat))
    (asn1 : List Nat → Option Nat) (inp : PemInput) (cfg : Config)
    (w : World) (e : S2nErr)
    (hfail : (s2n_config_add_cert_chain_and_key aOk keyPem asn1 inp cfg
        w).result = some e) :
    (aOk 0 = false ∧
      (s2n_config_add_cert_chain_and_key aOk keyPem asn1 inp cfg w).cfg = cfg) ∨
    ((s2n_config_add_cert_chain_and_key aOk keyPem asn1 inp cfg
        w).cfg.cert_and_key_pairs ≠ none ∧
      ((s2n_config_add_cert_chain_and_key aOk keyPem asn1 inp cfg
        w).cfg.cert_and_key_pairs.map CCKState.isFull) = some false) := by
  cases h0 : aOk 0 with
  | false =>
    exact Or.inl ⟨rfl, by simp [s2n_config_add_cert_chain_and_key, h0]⟩
  | true =>
    refine Or.inr ?_
    cases h1 : aOk 1 with
    | false =>
      constructor <;>
        simp [s2n_config_add_cert_chain_and_key, h0, h1, CCKState.isFull]
    | true =>
      cases keyPem with
      | none =>
        constructor <;>
          simp [s2n_config_add_cert_chain_and_key, h0, h1, CCKState.isFull]
      | some der =>
        cases hk : asn1 der with
        | none =>
          constructor <;>
            simp [s2n_config_add_cert_chain_and_key, h0, h1, hk,
              CCKState.isFull]
        | some key =>
          cases h2 : aOk 2 with
          | false =>
            constructor <;>
              simp [s2n_config_add_cert_chain_and_key, h0, h1, hk, h2,
                CCKState.isFull]
          | true =>
            cases hl : chainLoop aOk inp (inp.len + 1) 0 3 [] 0 with
            | ok nodes size cursor =>
              simp [s2n_config_add_cert_chain_and_key, h0, h1, hk, h2, hl]
                at hfail
            | emptyErr nodes cursor =>
              constructor <;>
                simp [s2n_config_add_cert_chain_and_key, h0, h1, hk, h2, hl,
                  afterLoopStop_not_full]
            | allocErr nodes size cursor =>
              constructor <;>
                simp [s2n_config_add_cert_chain_and_key, h0, h1, hk, h2, hl,
                  afterLoopStop_not_full]
            | fuelOut =>
              constructor <;>
                simp [s2n_config_add_cert_chain_and_key, h0, h1, hk, h2, hl,
                  CCKState.isFull]

/-- Counterexample to C4 as stated: a failing call (bad private key)
on a previously empty configuration leaves a dangling, uninitialized
chain-and-key reference attached, so the configuration is not in its
prior state. -/
theorem add_cert_bad_key_leaves_reference :
    (s2n_config_add_cert_chain_and_key (fun _ => true) none (fun _ => some 0)
        demoEmptyInp s2n_default_config ⟨false⟩).result = some .keyPemFail ∧
    (s2n_config_add_cert_chain_and_key (fun _ => true) none (fun _ => some 0)
        demoEmptyInp s2n_default_config ⟨false⟩).cfg.cert_and_key_pairs =
      some .uninit ∧
    ¬ (s2n_config_add_cert_chain_and_key (fun _ => true) none
        (fun _ => some 0) demoEmptyInp s2n_default_config
        ⟨false⟩).cfg.cert_and_key_pairs =
      s2n_default_config.cert_and_key_pairs := by
  decide

/-- Witness for C4 (amended): instantiated at the bad-key call. -/
theorem add_cert_failure_not_atomic_witness :
    ((fun _ => true : Nat → Bool) 0 = false ∧
      (s2n_config_add_cert_chain_and_key (fun _ => true) none
        (fun _ => some 0) demoEmptyInp s2n_default_config ⟨false⟩).cfg =
        s2n_default_config) ∨
    ((s2n_config_add_cert_chain_and_key (fun _ => true) none
        (fun _ => some 0) demoEmptyInp s2n_default_config
        ⟨false⟩).cfg.cert_and_key_pairs ≠ none ∧
      ((s2n_config_add_cert_chain_and_key (fun _ => true) none
        (fun _ => some 0) demoEmptyInp s2n_default_config
        ⟨false⟩).cfg.cert_and_key_pairs.map CCKState.isFull) = some false) :=
  add_cert_failure_not_atomic (fun _ => true) none (fun _ => some 0)
    demoEmptyInp s2n_default_config ⟨false⟩ .keyPemFail (by decide)

/-- C8: the chain-building loop terminates under the decoder progress
contract (fuel exceeding the unread byte count is never exhausted), and
it stops exactly on decoder failure or input exhaustion: a normal exit
carries a cursor at the end of the input or one where the decoder
fails, the empty-chain error exit carries a cursor where the decoder
fails, and when every allocation succeeds the loop never stops for an
allocation. -/
theorem chain_loop_stops_on_decoder_or_exhaustion
    (aOk : Nat → Bool) (inp : PemInput) (hprog : inp.Progress) :
    ∀ fuel c0 aidx nodes size, c0 ≤ inp.len → inp.len + 1 - c0 ≤ fuel →
      (chainLoop aOk inp fuel c0 aidx nodes size ≠ .fuelOut) ∧
      (∀ ns sz cu, chainLoop aOk inp fuel c0 aidx nodes size = .ok ns sz cu →
        cu = inp.len ∨ inp.decode cu = none) ∧
      (∀ ns cu, chainLoop aOk inp fuel c0 aidx nodes size = .emptyErr ns cu →
        inp.decode cu = none) ∧
      ((∀ i, aOk i = true) →
        ∀ ns sz cu,
          chainLoop aOk inp fuel c0 aidx nodes size ≠ .allocErr ns sz cu) := by
  intro fuel
  induction fuel with
  | zero =>
    intro c0 aidx nodes size hc0 hfuel
    exact absurd hfuel (by omega)
  | succ f ih =>
    intro c0 aidx nodes size hc0 hfuel
    cases hdec : inp.decode c0 with
    | none =>
      simp only [chainLoop, hdec]
      by_cases hs : size = 0
      · rw [if_pos hs]
        refine ⟨fun h => LoopOut.noConfusion h, ?_, ?_, ?_⟩
        · intro ns sz cu h
          exact LoopOut.noConfusion h
        · intro ns cu h
          injection h with h1 h2
          subst h2
          exact hdec
        · intro _ ns sz cu h
          exact LoopOut.noConfusion h
      · rw [if_neg hs]
        refine ⟨fun h => LoopOut.noConfusion h, ?_, ?_, ?_⟩
        · intro ns sz cu h
          injection h with h1 h2 h3
          subst h3
          exact Or.inr hdec
        · intro ns cu h
          exact LoopOut.noConfusion h
        · intro _ ns sz cu h
          exact LoopOut.noConfusion h
    | some p =>
      obtain ⟨b, c'⟩ := p
      have hp := hprog _ _ _ hdec
      simp only [chainLoop, hdec]
      cases hA : (aOk aidx && aOk (aidx + 1)) with
      | false =>
        simp only [hA, Bool.false_eq_true, if_false]
        refine ⟨fun h => LoopOut.noConfusion h, fun ns sz cu h =>
          LoopOut.noConfusion h, fun ns cu h => LoopOut.noConfusion h, ?_⟩
        intro hall ns sz cu _
        simp [hall aidx, hall (aidx + 1)] at hA
      | true =>
        simp only [hA, if_true]
        by_cases hb : inp.len - c' = 0
        · rw [if_pos hb]
          refine ⟨fun h => LoopOut.noConfusion h, ?_, fun ns cu h =>
            LoopOut.noConfusion h, fun _ ns sz cu h => LoopOut.noConfusion h⟩
          intro ns sz cu h
          injection h with h1 h2 h3
          subst h3
          exact Or.inl (by omega)
        · rw [if_neg hb]
          exact ih c' (aidx + 2) (nodes ++ [b]) ((size + b.length + 3) % U32)
            (by omega) (by omega)

/-- Witness for C8: on the demo input with ample fuel the loop does not
run out of fuel, and its normal exit's cursor sits at the end of the
input or at a decoder failure. -/
theorem chain_loop_stops_on_decoder_or_exhaustion_witness :
    demoInp.Progress ∧
    chainLoop (fun _ => true) demoInp 11 0 3 [] 0 ≠ .fuelOut ∧
    (10 = demoInp.len ∨ demoInp.decode 10 = none) :=
  ⟨demoInp_progress,
   (chain_loop_stops_on_decoder_or_exhaustion (fun _ => true) demoInp
     demoInp_progress 11 0 3 [] 0 (by decide) (by decide)).1,
   (chain_loop_stops_on_decoder_or_exhaustion (fun _ => true) demoInp
     demoInp_progress 11 0 3 [] 0 (by decide) (by decide)).2.1
     [[1, 2], [5]] 9 10 (by decide)⟩

/-- Every call to `s2n_config_add_cert_chain_and_key` either succeeds
having set the process-wide random override, or fails leaving the
process-wide state untouched. -/
theorem add_cert_world_split (aOk : Nat → Bool) (keyPem : Option (List Nat))
    (asn1 : List Nat → Option Nat) (inp : PemInput) (cfg : Config)
    (w : World) :
    ((s2n_config_add_cert_chain_and_key aOk keyPem asn1 inp cfg w).result =
        none ∧
      (s2n_config_add_cert_chain_and_key aOk keyPem asn1 inp cfg w).world =
        { rand_override_installed := true }) ∨
    ((s2n_config_add_cert_chain_and_key aOk keyPem asn1 inp cfg w).result ≠
        none ∧
      (s2n_config_add_cert_chain_and_key aOk keyPem asn1 inp cfg w).world =
        w) := by
  unfold s2n_config_add_cert_chain_and_key
  repeat' split
  all_goals first
    | exact Or.inl ⟨rfl, rfl⟩
    | exact Or.inr ⟨by simp, rfl⟩

/-- C9: the process-wide random-number-source override is installed by
every successful `s2n_config_add_cert_chain_and_key` call (on every
call, whatever the prior state), by no failing call, and never by
`s2n_config_new` or `s2n_config_add_dhparams`. -/
theorem rand_override_installed_only_by_add_cert :
    (∀ (aOk : Nat → Bool) (keyPem : Option (List Nat))
        (asn1 : List Nat → Option Nat) (inp : PemInput) (cfg : Config)
        (w : World),
      (s2n_config_add_cert_chain_and_key aOk keyPem asn1 inp cfg w).result =
          none →
      (s2n_config_add_cert_chain_and_key aOk keyPem asn1 inp cfg
          w).world.rand_override_installed = true) ∧
    (∀ (aOk : Nat → Bool) (keyPem : Option (List Nat))
        (asn1 : List Nat → Option Nat) (inp : PemInput) (cfg : Config)
        (w : World) (e : S2nErr),
      (s2n_config_add_cert_chain_and_key aOk keyPem asn1 inp cfg w).result =
          some e →
      (s2n_config_add_cert_chain_and_key aOk keyPem asn1 inp cfg w).world =
        w) ∧
    (∀ (aOk : Nat → Bool) (g : Config) (st : Statics) (h : Heap) (w : World),
      (s2n_config_new aOk g st h w).world = w) ∧
    (∀ (aOk : Nat → Bool) (dhPem : Option (List Nat))
        (pkcs3 : List Nat → Option Nat) (cfg : Config) (w : World),
      (s2n_config_add_dhparams aOk dhPem pkcs3 cfg w).world = w) := by
  refine ⟨?_, ?_, ?_, ?_⟩
  · intro aOk keyPem asn1 inp cfg w hres
    rcases add_cert_world_split aOk keyPem asn1 inp cfg w with ⟨_, hw⟩ | ⟨hne, _⟩
    · rw [hw]
    · exact absurd hres hne
  · intro aOk keyPem asn1 inp cfg w e hres
    rcases add_cert_world_split aOk keyPem asn1 inp cfg w with ⟨hn, _⟩ | ⟨_, hw⟩
    · rw [hres] at hn
      exact absurd hn (by simp)
    · exact hw
  · intro aOk g st h w
    unfold s2n_config_new
    repeat' split
    all_goals rfl
  · intro aOk dhPem pkcs3 cfg w
    unfold s2n_config_add_dhparams
    repeat' split
    all_goals rfl

/-- Witness for C9: a successful call installs the override starting
from a world without it; a failing call, `s2n_config_new` and
`s2n_config_add_dhparams` leave such a world unchanged. -/
theorem rand_override_installed_only_by_add_cert_witness :
    (s2n_config_add_cert_chain_and_key (fun _ => true) (some [0])
        (fun _ => some 0) demoInp s2n_default_config
        ⟨false⟩).world.rand_override_installed = true ∧
    (s2n_config_add_cert_chain_and_key (fun _ => true) none (fun _ => some 0)
        demoEmptyInp s2n_default_config ⟨false⟩).world = ⟨false⟩ ∧
    (s2n_config_new (fun _ => true) s2n_default_config initialStatics
        ⟨0, []⟩ ⟨false⟩).world = ⟨false⟩ ∧
    (s2n_config_add_dhparams (fun _ => true) (some [1]) (fun _ => some 2)
        s2n_default_config ⟨false⟩).world = ⟨false⟩ :=
  ⟨rand_override_installed_only_by_add_cert.1 (fun _ => true) (some [0])
     (fun _ => some 0) demoInp s2n_default_config ⟨false⟩ (by decide),
   rand_override_installed_only_by_add_cert.2.1 (fun _ => true) none
     (fun _ => some 0) demoEmptyInp s2n_default_config ⟨false⟩ .keyPemFail
     (by decide),
   rand_override_installed_only_by_add_cert.2.2.1 (fun _ => true)
     s2n_default_config initialStatics ⟨0, []⟩ ⟨false⟩,
   rand_override_installed_only_by_add_cert.2.2.2 (fun _ => true) (some [1])
     (fun _ => some 2) s2n_default_config ⟨false⟩⟩

/-- C6 (code bug): `s2n_config_new` never writes the `dhparams` field
of the configuration it allocates: when the allocator hands back
non-zero garbage there, the returned configuration's DH-parameters
reference is that garbage, not null — while `cert_and_key_pairs` is
explicitly nulled and the cipher preferences are filled in. -/
theorem config_new_dhparams_left_uninitialized :
    ((s2n_config_new (fun _ => true) garbageConfig initialStatics ⟨0, []⟩
        ⟨false⟩).config.map fun c => c.val.dhparams) =
      some (some (.dhFull 7)) ∧
    ¬ ((s2n_config_new (fun _ => true) garbageConfig initialStatics ⟨0, []⟩
        ⟨false⟩).config.map fun c => c.val.dhparams) = some none ∧
    ((s2n_config_new (fun _ => true) garbageConfig initialStatics ⟨0, []⟩
        ⟨false⟩).config.map fun c => c.val.cert_and_key_pairs) = some none ∧
    ((s2n_config_new (fun _ => true) garbageConfig initialStatics ⟨0, []⟩
        ⟨false⟩).config.map fun c => c.val.cipher_preferences) =
      some cipher_preferences_20140601 := by
  decide

/-- C7 (code bug): `s2n_config_new` makes three allocations (blocks 0,
1, 2: the config struct, the cipher-preference struct, the wire-format
copy) but `s2n_config_free` releases only the config struct's block,
leaking the other two. -/
theorem config_new_then_free_leaks :
    demoNewRun.heap.live = [2, 1, 0] ∧
    (demoNewRun.config.map fun c => c.selfId) = some 0 ∧
    (demoNewRun.config.map fun c => c.prefsId) = some 1 ∧
    (demoNewRun.config.map fun c => c.wireId) = some 2 ∧
    (demoNewRun.config.map fun c => (s2n_config_free demoNewRun.heap c).live) =
      some [2, 1] ∧
    ¬ (demoNewRun.config.map
        fun c => (s2n_config_free demoNewRun.heap c).live) = some [] := by
  decide

/-- C10: every configuration `s2n_config_new` returns owns a freshly
allocated cipher-preference table — its two blocks are new (not live
before the call, live after, distinct from each other and the config
block) — with count and wire-format bytes equal to the static default
table, and the call leaves the statics (the default table and the
static default configuration) unchanged. -/
theorem config_new_fresh_prefs_copy
    (aOk : Nat → Bool) (g : Config) (st : Statics) (h : Heap) (w : World)
    (hwf : h.WF) (c : ConfigRef)
    (hc : (s2n_config_new aOk g st h w).config = some c) :
    (s2n_config_new aOk g st h w).statics = st ∧
    c.selfId ∉ h.live ∧ c.prefsId ∉ h.live ∧ c.wireId ∉ h.live ∧
    c.selfId ≠ c.prefsId ∧ c.prefsId ≠ c.wireId ∧ c.selfId ≠ c.wireId ∧
    c.prefsId ∈ (s2n_config_new aOk g st h w).heap.live ∧
    c.wireId ∈ (s2n_config_new aOk g st h w).heap.live ∧
    c.val.cipher_preferences.count = st.cipher_preferences_20140601.count ∧
    c.val.cipher_preferences.wire_format = st.wire_format_20140601 := by
  cases h0 : aOk 0 with
  | false => simp [s2n_config_new, h0] at hc
  | true =>
    cases h1 : aOk 1 with
    | false => simp [s2n_config_new, h0, h1, s2n_alloc_heap] at hc
    | true =>
      cases h2 : aOk 2 with
      | false => simp [s2n_config_new, h0, h1, h2, s2n_alloc_heap] at hc
      | true =>
        simp only [s2n_config_new, h0, h1, h2, s2n_alloc_heap, if_true,
          Option.some.injEq] at hc
        subst hc
        refine ⟨?_, ?_, ?_, ?_, ?_, ?_, ?_, ?_, ?_, ?_, ?_⟩
        · simp [s2n_config_new, h0, h1, h2]
        · show h.next ∉ h.live
          intro hin
          exact absurd (hwf _ hin) (by omega)
        · show h.next + 1 ∉ h.live
          intro hin
          exact absurd (hwf _ hin) (by omega)
        · show h.next + 2 ∉ h.live
          intro hin
          exact absurd (hwf _ hin) (by omega)
        · show h.next ≠ h.next + 1
          omega
        · show h.next + 1 ≠ h.next + 2
          omega
        · show h.next ≠ h.next + 2
          omega
        · simp [s2n_config_new, h0, h1, h2, s2n_alloc_heap]
        · simp [s2n_config_new, h0, h1, h2, s2n_alloc_heap]
        · rfl
        · rfl

/-- Witness for C10: the fresh-copy theorem at the empty heap. -/
theorem config_new_fresh_prefs_copy_witness :
    (s2n_config_new (fun _ => true) s2n_default_config initialStatics
        ⟨0, []⟩ ⟨false⟩).statics = initialStatics ∧
    demoConfigRef.selfId ∉ Heap.live ⟨0, []⟩ ∧
    demoConfigRef.prefsId ∉ Heap.live ⟨0, []⟩ ∧
    demoConfigRef.wireId ∉ Heap.live ⟨0, []⟩ ∧
    demoConfigRef.selfId ≠ demoConfigRef.prefsId ∧
    demoConfigRef.prefsId ≠ demoConfigRef.wireId ∧
    demoConfigRef.selfId ≠ demoConfigRef.wireId ∧
    demoConfigRef.prefsId ∈ (s2n_config_new (fun _ => true) s2n_default_config
        initialStatics ⟨0, []⟩ ⟨false⟩).heap.live ∧
    demoConfigRef.wireId ∈ (s2n_config_new (fun _ => true) s2n_default_config
        initialStatics ⟨0, []⟩ ⟨false⟩).heap.live ∧
    demoConfigRef.val.cipher_preferences.count =
      initialStatics.cipher_preferences_20140601.count ∧
    demoConfigRef.val.cipher_preferences.wire_format =
      initialStatics.wire_format_20140601 :=
  config_new_fresh_prefs_copy (fun _ => true) s2n_default_config
    initialStatics ⟨0, []⟩ ⟨false⟩ (by decide) demoConfigRef (by decide)

end S2n
